import Mathlib

/-!
Verification of the breakout backtesting engine of the Trading repository.

The Python sources are shallowly embedded over `ℚ` (the scripts compute with
Python floats; we model the arithmetic exactly over the rationals).  A price
series (`pandas` DataFrame with Open/High/Low/Close columns) is a `List Bar`;
row access `df.loc[j]` / `df.iloc[j]` becomes `barAt df j`.  Each embedded
function carries a comment naming the source file and lines it translates.
-/

set_option linter.unusedVariables false

namespace Trading

/-- Bar is one OHLC row of the price DataFrame (columns Open/High/Low/Close). -/
structure Bar where
  Open : ℚ
  High : ℚ
  Low : ℚ
  Close : ℚ
deriving DecidableEq

/-- Row access `df.loc[j]` / `df.iloc[j]`.  All scans in the sources only read
indices that are in range, so the default bar is never actually consulted. -/
def barAt (df : List Bar) (j : ℕ) : Bar :=
  df.getD j ⟨0, 0, 0, 0⟩

/-- Python `max` over a list (`Series.max()` of a nonempty window); `none` for
the empty list, where pandas would yield NaN. -/
def listMax : List ℚ → Option ℚ
  | [] => none
  | x :: xs => some (xs.foldl max x)

/-- Python `min` over a list (`Series.min()` of a nonempty window); `none` for
the empty list, where pandas would yield NaN. -/
def listMin : List ℚ → Option ℚ
  | [] => none
  | x :: xs => some (xs.foldl min x)

/-- Which branch of the exit scan closed a trade.  The sources label these
`'tp'`, `'sl'` and (for the time-based exit) `'partial'`; `hover_strategy_test.py`
does not record a label, so this field is the record of which branch ran. -/
inductive Outcome
  | tp
  | sl
  | timeout
deriving DecidableEq

/-- Trade record of `hover_strategy_test.py` (dict with keys entry_bar,
exit_bar, direction, entry_price, exit_price, pnl), extended with the
`outcome` of the exit scan (see `Outcome`). -/
structure Trade where
  entry_bar : ℕ
  exit_bar : ℕ
  direction : ℚ
  entry_price : ℚ
  exit_price : ℚ
  pnl : ℚ
  outcome : Outcome
deriving DecidableEq

/-- Window `df.loc[i - lookback : i - 1]` of `hover_strategy_test.py` line 36
(label slicing is inclusive, so the window holds `lookback` bars ending at
`i - 1`).  The scan only evaluates it for `lookback ≤ i`. -/
def priorWindow (df : List Bar) (lookback i : ℕ) : List Bar :=
  (df.drop (i - lookback)).take lookback

/-- Signal detection of `hover_strategy_test.py` lines 36-49: the prior
window's High max and Low min, the hover-range qualification and the breakout
direction.  Returns `(direction, prior_high, prior_low)`.  For an empty window
(`lookback = 0`) pandas yields NaN extremes, every comparison is false and the
bar is skipped; this is the `none` branch of the match. -/
def detect (df : List Bar) (lookback : ℕ) (hover_range : ℚ) (i : ℕ) :
    Option (ℚ × ℚ × ℚ) :=
  match listMax ((priorWindow df lookback i).map Bar.High),
        listMin ((priorWindow df lookback i).map Bar.Low) with
  | some prior_high, some prior_low =>
    if prior_high - prior_low > hover_range then none
    else
      let close := (barAt df i).Close
      if close > prior_high then some (1, prior_high, prior_low)
      else if close < prior_low then some (-1, prior_high, prior_low)
      else none
  | _, _ => none

/-- Exit scan of `hover_strategy_test.py` lines 57-77 over the bar indices
`js` (the source iterates `j in range(i+1, i+max_hold+1)`), returning the exit
price, exit bar and which branch fired.  For longs the take-profit test comes
before the stop-loss test, and symmetrically for shorts. -/
def findExit (df : List Bar) (direction target stop half_spread : ℚ) :
    List ℕ → Option (ℚ × ℕ × Outcome)
  | [] => none
  | j :: js =>
    let high := (barAt df j).High
    let low := (barAt df j).Low
    if direction = 1 then
      if high ≥ target then some (target - half_spread, j, Outcome.tp)
      else if low ≤ stop then some (stop - half_spread, j, Outcome.sl)
      else findExit df direction target stop half_spread js
    else
      if low ≤ target then some (target + half_spread, j, Outcome.tp)
      else if high ≥ stop then some (stop + half_spread, j, Outcome.sl)
      else findExit df direction target stop half_spread js

/-- Trade construction of `hover_strategy_test.py` lines 51-91 for a detected
signal at bar `i`: entry at `Open[i] + half_spread * direction`, exit by the
scan `findExit` over bars `i+1 .. i+max_hold`, else the time-based exit at
`Close[i+max_hold] - half_spread * direction`. -/
def mkTradeAt (df : List Bar) (tp sl : ℚ) (max_hold : ℕ) (spread : ℚ)
    (i : ℕ) (direction : ℚ) : Trade :=
  let half_spread := spread / 2
  let entry := (barAt df i).Open + half_spread * direction
  let target := entry + tp * direction
  let stop := entry - sl * direction
  match findExit df direction target stop half_spread (List.range' (i + 1) max_hold) with
  | some (exit_price, exit_bar, oc) =>
      ⟨i, exit_bar, direction, entry, exit_price, (exit_price - entry) * direction, oc⟩
  | none =>
      let exit_price := (barAt df (i + max_hold)).Close - half_spread * direction
      ⟨i, i + max_hold, direction, entry, exit_price,
        (exit_price - entry) * direction, Outcome.timeout⟩

/-- One iteration of the scan loop of `hover_strategy_test.py` lines 35-91:
`none` when the bar is skipped (`continue`), otherwise the appended trade. -/
def processBar (df : List Bar) (lookback : ℕ) (hover_range tp sl : ℚ)
    (max_hold : ℕ) (spread : ℚ) (i : ℕ) : Option Trade :=
  match detect df lookback hover_range i with
  | some (direction, _, _) => some (mkTradeAt df tp sl max_hold spread i direction)
  | none => none

/-- The `backtest` of `hover_strategy_test.py` lines 24-93: scan
`i in range(lookback, len(df) - max_hold)` and collect the trades.  The
`backtest` of `RandomSpinsBot/generate_spins.py` lines 119-174 is
line-for-line the same algorithm and is covered by this one embedding. -/
def backtest (df : List Bar) (lookback : ℕ) (hover_range tp sl : ℚ)
    (max_hold : ℕ) (spread : ℚ) : List Trade :=
  (List.range' lookback (df.length - max_hold - lookback)).filterMap
    (processBar df lookback hover_range tp sl max_hold spread)

/-- Trade pnls, `pnls = [t["pnl"] for t in trades]` of
`hover_strategy_test.py` line 98. -/
def pnls (trades : List Trade) : List ℚ :=
  trades.map Trade.pnl

/-- Win count `wins = sum(p > 0 for p in pnls)` of `hover_strategy_test.py`
line 100. -/
def wins_of (l : List ℚ) : ℕ :=
  (l.filter (fun p => 0 < p)).length

/-- Loss count `losses = total - wins` of `hover_strategy_test.py` line 101. -/
def losses_of (l : List ℚ) : ℕ :=
  l.length - wins_of l

/-- Win rate `wins / total if total else 0` of `hover_strategy_test.py`
line 102. -/
def win_rate (l : List ℚ) : ℚ :=
  if l.length = 0 then 0 else (wins_of l : ℚ) / (l.length : ℚ)

/-- Average win `sum(p for p in pnls if p > 0) / wins if wins else 0` of
`hover_strategy_test.py` line 104. -/
def avg_win (l : List ℚ) : ℚ :=
  if wins_of l = 0 then 0 else (l.filter (fun p => 0 < p)).sum / (wins_of l : ℚ)

/-- Average loss `-sum(p for p in pnls if p <= 0) / losses if losses else 0`
of `hover_strategy_test.py` line 105 (a nonnegative magnitude). -/
def avg_loss (l : List ℚ) : ℚ :=
  if losses_of l = 0 then 0
  else -(l.filter (fun p => p ≤ 0)).sum / (losses_of l : ℚ)

/-- Risk-reward `rr = avg_win / avg_loss if avg_loss else 0` of
`hover_strategy_test.py` line 106. -/
def rr (l : List ℚ) : ℚ :=
  if avg_loss l = 0 then 0 else avg_win l / avg_loss l

/-- Expectancy `win_rate * avg_win - (1 - win_rate) * avg_loss` of
`hover_strategy_test.py` line 107. -/
def expectancy (l : List ℚ) : ℚ :=
  win_rate l * avg_win l - (1 - win_rate l) * avg_loss l

/-- Kelly fraction `win_rate - (1 - win_rate) / rr if rr else 0` of
`hover_strategy_test.py` line 108. -/
def kelly (l : List ℚ) : ℚ :=
  if rr l = 0 then 0 else win_rate l - (1 - win_rate l) / rr l

/-- One step of the drawdown loop of `hover_strategy_test.py` lines 114-117;
the state is `(equity, peak, max_dd)`. -/
def dd_step (s : ℚ × ℚ × ℚ) (p : ℚ) : ℚ × ℚ × ℚ :=
  let equity := s.1 + p
  let peak := max s.2.1 equity
  (equity, peak, max s.2.2 (peak - equity))

/-- Max drawdown loop of `hover_strategy_test.py` lines 111-117, starting from
`equity = peak = initial_balance` and `max_dd = 0`. -/
def max_drawdown (l : List ℚ) (initial_balance : ℚ) : ℚ :=
  (l.foldl dd_step (initial_balance, initial_balance, 0)).2.2

/-- Metrics record returned by `compute_metrics` (the dict of
`hover_strategy_test.py` lines 119-128). -/
structure Metrics where
  total_trades : ℕ
  wins : ℕ
  losses : ℕ
  win_rate : ℚ
  net_profit : ℚ
  max_drawdown : ℚ
  expectancy : ℚ
  kelly : ℚ
deriving DecidableEq

/-- The `compute_metrics` of `hover_strategy_test.py` lines 96-128.  The
`compute_metrics` of `strategy_tester.py` lines 35-68 is line-for-line the
same computation (with `sum(1 for p in pnls if p > 0)` for the win count) and
is covered by this one embedding. -/
def compute_metrics (trades : List Trade) (initial_balance : ℚ) : Metrics :=
  let l := pnls trades
  ⟨l.length, wins_of l, losses_of l, win_rate l, l.sum,
    max_drawdown l initial_balance, expectancy l, kelly l⟩

/-- Claim-side average win, written from the spec wording: the mean of the
positive pnls, `0` if there are none. -/
def spec_avg_win (l : List ℚ) : ℚ :=
  let pos := l.filter (fun p => 0 < p)
  if pos.length = 0 then 0 else pos.sum / (pos.length : ℚ)

/-- Claim-side average loss, written from the spec wording: the positive
magnitude of the mean of the pnls `≤ 0`, `0` if there are none. -/
def spec_avg_loss (l : List ℚ) : ℚ :=
  let nonpos := l.filter (fun p => p ≤ 0)
  if nonpos.length = 0 then 0 else -(nonpos.sum / (nonpos.length : ℚ))

/-- Claim-side risk-reward, written from the spec wording:
`avgWin / avgLoss` when `avgLoss > 0` and `0` otherwise. -/
def spec_risk_reward (l : List ℚ) : ℚ :=
  if 0 < spec_avg_loss l then spec_avg_win l / spec_avg_loss l else 0

/-- Claim-side Kelly fraction, written from the spec wording:
`winRate - (1 - winRate) / riskReward` when `riskReward > 0`, `0` otherwise. -/
def spec_kelly (l : List ℚ) : ℚ :=
  if 0 < spec_risk_reward l then win_rate l - (1 - win_rate l) / spec_risk_reward l
  else 0

/-- Loop body list of `simulate_equity`, `hover_strategy_test.py` lines
135-138: each step stakes `eq * max(0, kelly_fraction)` and appends the new
balance. -/
def simulate_equity_from (kelly_fraction : ℚ) (eq : ℚ) : List Trade → List ℚ
  | [] => []
  | t :: ts =>
    let stake := eq * max 0 kelly_fraction
    let eq2 := eq + t.pnl * stake
    eq2 :: simulate_equity_from kelly_fraction eq2 ts

/-- The `simulate_equity` of `hover_strategy_test.py` lines 131-139: the curve
starts with the starting balance and appends one balance per trade. -/
def simulate_equity (trades : List Trade) (kelly_fraction start_balance : ℚ) :
    List ℚ :=
  start_balance :: simulate_equity_from kelly_fraction start_balance trades

/-- Loop body list of `simulate_account`, `strategy_tester.py` lines 75-78:
each step stakes `equity * kelly_fraction` (no clamping in this variant). -/
def simulate_account_from (kelly_fraction : ℚ) (equity : ℚ) : List Trade → List ℚ
  | [] => []
  | t :: ts =>
    let stake := equity * kelly_fraction
    let eq2 := equity + t.pnl * stake
    eq2 :: simulate_account_from kelly_fraction eq2 ts

/-- The `simulate_account` of `strategy_tester.py` lines 71-79.  Its trade
dicts are read only through `t["pnl"]`, so the shared `Trade` record is used.
The clamping `max(0, kelly)` happens at its call site (line 95), not here. -/
def simulate_account (trades : List Trade) (kelly_fraction start : ℚ) : List ℚ :=
  start :: simulate_account_from kelly_fraction start trades

/-- Exit scan of `grouped_volatility_backtest.py` lines 64-100 over the bar
indices `js` (the source iterates `j in range(0, future_candles + 1)` over
`idx + j`).  The combined same-bar check comes first and resolves to the
stop-loss; the separate stop-loss check precedes the take-profit check. -/
def gv_find_exit (df : List Bar) (direction tp_price sl_price : ℚ) :
    List ℕ → Option (ℚ × ℕ × Outcome)
  | [] => none
  | j :: js =>
    let high := (barAt df j).High
    let low := (barAt df j).Low
    if direction = 1 then
      if high ≥ tp_price ∧ low ≤ sl_price then some (sl_price, j, Outcome.sl)
      else if low ≤ sl_price then some (sl_price, j, Outcome.sl)
      else if high ≥ tp_price then some (tp_price, j, Outcome.tp)
      else gv_find_exit df direction tp_price sl_price js
    else
      if low ≤ tp_price ∧ high ≥ sl_price then some (sl_price, j, Outcome.sl)
      else if high ≥ sl_price then some (sl_price, j, Outcome.sl)
      else if low ≤ tp_price then some (tp_price, j, Outcome.tp)
      else gv_find_exit df direction tp_price sl_price js

/-- One pip, `pip = 0.0001` of `hover_breakout_backtester.py` line 26. -/
def pip : ℚ := 1 / 10000

/-- Trade record of `hover_breakout_strategy` (`hover_breakout_backtester.py`
lines 79-88; keys Time Open, Open Price, Time Close, Close Price, Pip PnL,
Status, SL, TP).  The Time columns are modelled by the bar index, which is
what the source copies out of the sorted frame; `direction` records the
breakout sign, which the source keeps only in a local variable. -/
structure HBTrade where
  time_open : ℕ
  open_price : ℚ
  time_close : ℕ
  close_price : ℚ
  pip_pnl : ℚ
  status : Outcome
  sl : ℚ
  tp : ℚ
  direction : ℚ
deriving DecidableEq

/-- Signal detection of `hover_breakout_backtester.py` lines 29-40: window
`df.iloc[idx - back_candles : idx]` (exclusive end, `back_candles` bars ending
at `idx - 1`), qualification `High.max - Low.min <= range_pips * pip`, breakout
by `Close[idx]` against the window extremes.  Empty window (`back_candles = 0`)
gives NaN extremes in pandas and never qualifies: the `none` branch. -/
def hb_detect (df : List Bar) (back_candles : ℕ) (range_pips : ℚ) (idx : ℕ) :
    Option (ℚ × ℚ × ℚ) :=
  match listMax (((df.drop (idx - back_candles)).take back_candles).map Bar.High),
        listMin (((df.drop (idx - back_candles)).take back_candles).map Bar.Low) with
  | some range_high, some range_low =>
    if range_high - range_low ≤ range_pips * pip then
      let close := (barAt df idx).Close
      if close > range_high then some (1, range_high, range_low)
      else if close < range_low then some (-1, range_high, range_low)
      else none
    else none
  | _, _ => none

/-- Exit scan of `hover_breakout_backtester.py` lines 51-75 over the bar
indices `js` (the source iterates `j in range(1, future_candles + 1)` over
`idx + j`).  The take-profit test comes before the stop-loss test, and the
exit prices are the raw tp/sl levels (no spread adjustment on exit here). -/
def hb_find_exit (df : List Bar) (direction tp_price sl_price : ℚ) :
    List ℕ → Option (ℚ × ℕ × Outcome)
  | [] => none
  | j :: js =>
    let high := (barAt df j).High
    let low := (barAt df j).Low
    if direction = 1 then
      if high ≥ tp_price then some (tp_price, j, Outcome.tp)
      else if low ≤ sl_price then some (sl_price, j, Outcome.sl)
      else hb_find_exit df direction tp_price sl_price js
    else
      if low ≤ tp_price then some (tp_price, j, Outcome.tp)
      else if high ≥ sl_price then some (sl_price, j, Outcome.sl)
      else hb_find_exit df direction tp_price sl_price js

/-- One iteration of the scan loop of `hover_breakout_backtester.py` lines
28-88: `none` when the bar yields no signal, otherwise the appended trade.
Entry is `Close[idx] + direction * (spread / 2)` (line 43); the default exit,
taken when the scan finds nothing, is the bar `future_candles` ahead at
`Close - direction * (spread / 2)` with status `'partial'` (`Outcome.timeout`). -/
def hb_process_bar (df : List Bar) (back_candles : ℕ)
    (range_pips tp_pips sl_pips : ℚ) (future_candles : ℕ) (spread : ℚ)
    (idx : ℕ) : Option HBTrade :=
  match hb_detect df back_candles range_pips idx with
  | some (direction, _, _) =>
    let entry_price := (barAt df idx).Close + direction * (spread / 2)
    let tp_price := entry_price + direction * tp_pips * pip
    let sl_price := entry_price - direction * sl_pips * pip
    match hb_find_exit df direction tp_price sl_price
        (List.range' (idx + 1) future_candles) with
    | some (close_price, j, status) =>
        some ⟨idx, entry_price, j, close_price,
          (close_price - entry_price) * direction / pip, status,
          sl_price, tp_price, direction⟩
    | none =>
        let close_price := (barAt df (idx + future_candles)).Close
          - direction * (spread / 2)
        some ⟨idx, entry_price, idx + future_candles, close_price,
          (close_price - entry_price) * direction / pip, Outcome.timeout,
          sl_price, tp_price, direction⟩
  | none => none

/-- The `hover_breakout_strategy` of `hover_breakout_backtester.py` lines
12-93: scan `idx in range(back_candles, len(df) - future_candles)` and collect
the trades. -/
def hover_breakout_strategy (df : List Bar) (back_candles : ℕ)
    (range_pips tp_pips sl_pips : ℚ) (future_candles : ℕ) (spread : ℚ) :
    List HBTrade :=
  (List.range' back_candles (df.length - future_candles - back_candles)).filterMap
    (hb_process_bar df back_candles range_pips tp_pips sl_pips future_candles spread)

/-- Dollars per pip per standard lot, `PIP_VALUE = 10` of
`stats_calculator.py` line 18. -/
def PIP_VALUE : ℚ := 10

/-- Per-trade money pnl of `stats_calculator.py` lines 64-66:
`trade_size = equity * risk_factor`, `lot_size = trade_size * leverage / 100000`,
`pnl = PIP_VALUE * lot_size * pip_diff`. -/
def trade_pnl (risk_factor leverage equity : ℚ) (t : HBTrade) : ℚ :=
  let trade_size := equity * risk_factor
  let lot_size := trade_size * leverage / 100000
  PIP_VALUE * lot_size * t.pip_pnl

/-- Balances appended by the equity loop of `stats_calculator.py` lines
54-69 (one per trade, the starting equity excluded). -/
def equity_seq (risk_factor leverage : ℚ) (equity : ℚ) : List HBTrade → List ℚ
  | [] => []
  | t :: ts =>
    let e2 := equity + trade_pnl risk_factor leverage equity t
    e2 :: equity_seq risk_factor leverage e2 ts

/-- Money pnls of the equity loop of `stats_calculator.py` lines 54-73, in
trade order (the values sorted into the `wins` / `losses` lists). -/
def pnl_list (risk_factor leverage : ℚ) (equity : ℚ) : List HBTrade → List ℚ
  | [] => []
  | t :: ts =>
    let p := trade_pnl risk_factor leverage equity t
    p :: pnl_list risk_factor leverage (equity + p) ts

/-- Running maxima `np.maximum.accumulate` over the tail given the running
max so far (`stats_calculator.py` line 82). -/
def cummax_from (m : ℚ) : List ℚ → List ℚ
  | [] => []
  | x :: xs =>
    let m2 := max m x
    m2 :: cummax_from m2 xs

/-- Running maxima `np.maximum.accumulate(curve)` of `stats_calculator.py`
line 82. -/
def cummax : List ℚ → List ℚ
  | [] => []
  | x :: xs => x :: cummax_from x xs

/-- Max percentage drawdown of `stats_calculator.py` lines 80-86:
`((peaks - curve) / peaks * 100).max()` when the curve has more than one
point, else `0`. -/
def max_drawdown_pct (curve : List ℚ) : ℚ :=
  if 1 < curve.length then
    ((cummax curve).zipWith (fun p c => (p - c) / p * 100) curve).foldl max 0
  else 0

/-- Round-half-to-even on `ℚ`, modelling Python's `round` (banker's
rounding) exactly on the rationals. -/
def round_half_even (x : ℚ) : ℤ :=
  let f := ⌊x⌋
  let d := x - (f : ℚ)
  if d < 1 / 2 then f
  else if 1 / 2 < d then f + 1
  else if f % 2 = 0 then f else f + 1

/-- Python `round(x, 2)` on the rationals. -/
def round2 (x : ℚ) : ℚ :=
  (round_half_even (x * 100) : ℚ) / 100

/-- Stats dict of `stats_calculator.py` lines 88-98.  The key
`'Partial Hits'` is the field `timeout_hits` (`Outcome.timeout` stands for
the source's `'partial'` status). -/
structure CalcStats where
  total_trades : ℕ
  timeout_hits : ℕ
  tp_hits : ℕ
  sl_hits : ℕ
  win_rate : ℚ
  avg_win : ℚ
  avg_loss : ℚ
  max_drawdown : ℚ
  final_equity : ℚ
deriving DecidableEq

/-- The column selection `trades['Time Close']` on the trade DataFrame
(`stats_calculator.py` line 99).  The optimizer builds that frame as
`pd.DataFrame(trades)` from a list of dicts; for the empty list the frame has
no columns at all, so the selection raises `KeyError` — the error branch.  For
a nonempty list the column exists and is the `time_close` values. -/
def time_close_column (trades : List HBTrade) : Except String (List ℕ) :=
  if trades.isEmpty then Except.error "KeyError: Time Close"
  else Except.ok (trades.map HBTrade.time_close)

/-- The `calculate_stats` of `stats_calculator.py` lines 38-99: the equity
loop, the hit counters (wins are the pnls `>= 0`, losses the pnls `< 0`), the
guarded ratio stats, the percentage drawdown over the curve, and finally the
pairing `zip(trades['Time Close'], equity_curve[1:])` — whose column access
raises on a zero-trade input (see `time_close_column`). -/
def calculate_stats (trades : List HBTrade)
    (starting_equity risk_factor leverage : ℚ) :
    Except String (CalcStats × List (ℕ × ℚ)) :=
  let money_pnls := pnl_list risk_factor leverage starting_equity trades
  let equity_curve := starting_equity ::
    equity_seq risk_factor leverage starting_equity trades
  let wins := money_pnls.filter (fun p => 0 ≤ p)
  let losses := money_pnls.filter (fun p => p < 0)
  let total_trades := trades.length
  let win_rate := if total_trades = 0 then 0
    else (wins.length : ℚ) / (total_trades : ℚ) * 100
  let avg_win := if wins.length = 0 then 0
    else wins.sum / (wins.length : ℚ) / starting_equity * 100
  let avg_loss := if losses.length = 0 then 0
    else |losses.sum / (losses.length : ℚ)| / starting_equity * 100
  let stats : CalcStats :=
    ⟨total_trades,
      (trades.filter (fun t => t.status = Outcome.timeout)).length,
      (trades.filter (fun t => t.status = Outcome.tp)).length,
      (trades.filter (fun t => t.status = Outcome.sl)).length,
      round2 win_rate, round2 avg_win, round2 avg_loss,
      round2 (max_drawdown_pct equity_curve),
      round2 ((equity_curve.getLast?).getD 0)⟩
  match time_close_column trades with
  | Except.error e => Except.error e
  | Except.ok tc => Except.ok (stats, tc.zip (equity_curve.drop 1))

/-- Result dict of `run_test` (`Hover_Breakout/hover_breakout_optimizer.py`
lines 45-50), minus the parameter echo. -/
structure RunResult where
  final_equity : ℚ
  total_trades : ℕ
  max_drawdown : ℚ
deriving DecidableEq

/-- The `run_test` of `Hover_Breakout/hover_breakout_optimizer.py` lines
33-51: backtest one grid combination (spread fixed to the default `0.0002`)
and reduce it through `calculate_stats` with its default arguments
(`starting_equity = 10000`, `risk_factor = 0.01`, `leverage = 100`).  An
exception escaping `calculate_stats` escapes `run_test`: the `Except` is
propagated. -/
def run_test (df : List Bar) (back_candles : ℕ)
    (range_pips tp_pips sl_pips : ℚ) (future_candles : ℕ) :
    Except String RunResult :=
  let trades := hover_breakout_strategy df back_candles range_pips tp_pips
    sl_pips future_candles (2 / 10000)
  match calculate_stats trades 10000 (1 / 100) 100 with
  | Except.error e => Except.error e
  | Except.ok (stats, _) =>
      Except.ok ⟨stats.final_equity, stats.total_trades, stats.max_drawdown⟩

/-- Concrete three-bar series: a flat bar, a breakout-long bar, and a wide bar
that breaches both the take-profit and the stop-loss levels. -/
def dfEx : List Bar := [⟨1, 1, 1, 1⟩, ⟨1, 2, 1, 2⟩, ⟨5, 10, 0, 5⟩]

/-- The single trade `backtest dfEx 1 0 1 (1/2) 1 0` produces. -/
def tEx : Trade := ⟨1, 2, 1, 1, 2, 1, Outcome.tp⟩

/-- The single trade `hover_breakout_strategy dfEx 1 0 1 1 1 0` produces. -/
def tHB : HBTrade :=
  ⟨1, 2, 2, 20001 / 10000, 1, Outcome.tp, 19999 / 10000, 20001 / 10000, 1⟩

/-- Concrete three-bar series whose bars are far too wide to hover, so the
hover-breakout strategy produces zero trades on it. -/
def dfNoTrade : List Bar := [⟨1, 2, 1, 1⟩, ⟨1, 2, 1, 1⟩, ⟨1, 2, 1, 1⟩]

/-- Concrete one-bar series breaching both exit levels of the
grouped-volatility scan. -/
def dfGv : List Bar := [⟨0, 10, 0, 0⟩]

theorem backtest_dfEx_eval :
    backtest dfEx 1 0 1 (1 / 2) 1 0 = [tEx] := by
  norm_num [backtest, processBar, detect, priorWindow, listMax, listMin, barAt,
    mkTradeAt, findExit, List.range', dfEx, tEx, List.filterMap_cons]

theorem hb_strategy_dfEx_eval :
    hover_breakout_strategy dfEx 1 0 1 1 1 0 = [tHB] := by
  norm_num [hover_breakout_strategy, hb_process_bar, hb_detect, hb_find_exit,
    listMax, listMin, barAt, pip, List.range', dfEx, tHB, List.filterMap_cons]

theorem findExit_mem (df : List Bar) (d target stop half : ℚ) :
    ∀ (js : List ℕ) (p : ℚ) (j : ℕ) (o : Outcome),
      findExit df d target stop half js = some (p, j, o) → j ∈ js := by
  intro js
  induction js with
  | nil => intro p j o h; simp [findExit] at h
  | cons a as ih =>
    intro p j o h
    simp only [findExit] at h
    by_cases hd : d = 1
    · rw [if_pos hd] at h
      by_cases h1 : (barAt df a).High ≥ target
      · rw [if_pos h1, Option.some.injEq, Prod.mk.injEq, Prod.mk.injEq] at h
        exact h.2.1 ▸ List.mem_cons_self a as
      · rw [if_neg h1] at h
        by_cases h2 : (barAt df a).Low ≤ stop
        · rw [if_pos h2, Option.some.injEq, Prod.mk.injEq, Prod.mk.injEq] at h
          exact h.2.1 ▸ List.mem_cons_self a as
        · rw [if_neg h2] at h
          exact List.mem_cons_of_mem a (ih p j o h)
    · rw [if_neg hd] at h
      by_cases h1 : (barAt df a).Low ≤ target
      · rw [if_pos h1, Option.some.injEq, Prod.mk.injEq, Prod.mk.injEq] at h
        exact h.2.1 ▸ List.mem_cons_self a as
      · rw [if_neg h1] at h
        by_cases h2 : (barAt df a).High ≥ stop
        · rw [if_pos h2, Option.some.injEq, Prod.mk.injEq, Prod.mk.injEq] at h
          exact h.2.1 ▸ List.mem_cons_self a as
        · rw [if_neg h2] at h
          exact List.mem_cons_of_mem a (ih p j o h)

theorem findExit_price (df : List Bar) (d target stop half : ℚ)
    (hd : d = 1 ∨ d = -1) :
    ∀ (js : List ℕ) (p : ℚ) (j : ℕ) (o : Outcome),
      findExit df d target stop half js = some (p, j, o) →
      (o = Outcome.tp ∧ p = target - half * d) ∨
      (o = Outcome.sl ∧ p = stop - half * d) := by
  intro js
  induction js with
  | nil => intro p j o h; simp [findExit] at h
  | cons a as ih =>
    intro p j o h
    simp only [findExit] at h
    rcases hd with hd1 | hd1
    · rw [if_pos hd1] at h
      by_cases h1 : (barAt df a).High ≥ target
      · rw [if_pos h1, Option.some.injEq, Prod.mk.injEq, Prod.mk.injEq] at h
        exact Or.inl ⟨h.2.2.symm, by rw [← h.1, hd1]; ring⟩
      · rw [if_neg h1] at h
        by_cases h2 : (barAt df a).Low ≤ stop
        · rw [if_pos h2, Option.some.injEq, Prod.mk.injEq, Prod.mk.injEq] at h
          exact Or.inr ⟨h.2.2.symm, by rw [← h.1, hd1]; ring⟩
        · rw [if_neg h2] at h
          exact ih p j o h
    · rw [if_neg (by rw [hd1]; norm_num : ¬ d = 1)] at h
      by_cases h1 : (barAt df a).Low ≤ target
      · rw [if_pos h1, Option.some.injEq, Prod.mk.injEq, Prod.mk.injEq] at h
        exact Or.inl ⟨h.2.2.symm, by rw [← h.1, hd1]; ring⟩
      · rw [if_neg h1] at h
        by_cases h2 : (barAt df a).High ≥ stop
        · rw [if_pos h2, Option.some.injEq, Prod.mk.injEq, Prod.mk.injEq] at h
          exact Or.inr ⟨h.2.2.symm, by rw [← h.1, hd1]; ring⟩
        · rw [if_neg h2] at h
          exact ih p j o h

theorem findExit_both (df : List Bar) (target stop half : ℚ) :
    ∀ (js : List ℕ) (p : ℚ) (j : ℕ) (o : Outcome),
      findExit df 1 target stop half js = some (p, j, o) →
      (barAt df j).High ≥ target → (barAt df j).Low ≤ stop →
      p = target - half ∧ o = Outcome.tp := by
  intro js
  induction js with
  | nil => intro p j o h; simp [findExit] at h
  | cons a as ih =>
    intro p j o h hhigh hlow
    simp only [findExit, eq_self_iff_true, if_true] at h
    by_cases h1 : (barAt df a).High ≥ target
    · rw [if_pos h1, Option.some.injEq, Prod.mk.injEq, Prod.mk.injEq] at h
      exact ⟨h.1.symm, h.2.2.symm⟩
    · rw [if_neg h1] at h
      by_cases h2 : (barAt df a).Low ≤ stop
      · rw [if_pos h2, Option.some.injEq, Prod.mk.injEq, Prod.mk.injEq] at h
        exact absurd (h.2.1 ▸ hhigh) h1
      · rw [if_neg h2] at h
        exact ih p j o h hhigh hlow

theorem gv_find_exit_both (df : List Bar) (tp_price sl_price : ℚ) :
    ∀ (js : List ℕ) (p : ℚ) (j : ℕ) (o : Outcome),
      gv_find_exit df 1 tp_price sl_price js = some (p, j, o) →
      (barAt df j).High ≥ tp_price → (barAt df j).Low ≤ sl_price →
      p = sl_price ∧ o = Outcome.sl := by
  intro js
  induction js with
  | nil => intro p j o h; simp [gv_find_exit] at h
  | cons a as ih =>
    intro p j o h hhigh hlow
    simp only [gv_find_exit, eq_self_iff_true, if_true] at h
    by_cases h1 : (barAt df a).High ≥ tp_price ∧ (barAt df a).Low ≤ sl_price
    · rw [if_pos h1, Option.some.injEq, Prod.mk.injEq, Prod.mk.injEq] at h
      exact ⟨h.1.symm, h.2.2.symm⟩
    · rw [if_neg h1] at h
      by_cases h2 : (barAt df a).Low ≤ sl_price
      · rw [if_pos h2, Option.some.injEq, Prod.mk.injEq, Prod.mk.injEq] at h
        exact ⟨h.1.symm, h.2.2.symm⟩
      · rw [if_neg h2] at h
        by_cases h3 : (barAt df a).High ≥ tp_price
        · rw [if_pos h3, Option.some.injEq, Prod.mk.injEq, Prod.mk.injEq] at h
          exact absurd (h.2.1 ▸ hlow) h2
        · rw [if_neg h3] at h
          exact ih p j o h hhigh hlow

theorem hb_find_exit_both (df : List Bar) (tp_price sl_price : ℚ) :
    ∀ (js : List ℕ) (p : ℚ) (j : ℕ) (o : Outcome),
      hb_find_exit df 1 tp_price sl_price js = some (p, j, o) →
      (barAt df j).High ≥ tp_price → (barAt df j).Low ≤ sl_price →
      p = tp_price ∧ o = Outcome.tp := by
  intro js
  induction js with
  | nil => intro p j o h; simp [hb_find_exit] at h
  | cons a as ih =>
    intro p j o h hhigh hlow
    simp only [hb_find_exit, eq_self_iff_true, if_true] at h
    by_cases h1 : (barAt df a).High ≥ tp_price
    · rw [if_pos h1, Option.some.injEq, Prod.mk.injEq, Prod.mk.injEq] at h
      exact ⟨h.1.symm, h.2.2.symm⟩
    · rw [if_neg h1] at h
      by_cases h2 : (barAt df a).Low ≤ sl_price
      · rw [if_pos h2, Option.some.injEq, Prod.mk.injEq, Prod.mk.injEq] at h
        exact absurd (h.2.1 ▸ hhigh) h1
      · rw [if_neg h2] at h
        exact ih p j o h hhigh hlow

theorem mem_backtest (df : List Bar) (lookback : ℕ) (hover_range tp sl : ℚ)
    (max_hold : ℕ) (spread : ℚ) (t : Trade)
    (ht : t ∈ backtest df lookback hover_range tp sl max_hold spread) :
    ∃ (i : ℕ) (d ph pl : ℚ),
      i ∈ List.range' lookback (df.length - max_hold - lookback) ∧
      detect df lookback hover_range i = some (d, ph, pl) ∧
      t = mkTradeAt df tp sl max_hold spread i d := by
  rw [backtest, List.mem_filterMap] at ht
  obtain ⟨i, hi, hp⟩ := ht
  unfold processBar at hp
  rcases hdet : detect df lookback hover_range i with _ | ⟨d, ph, pl⟩ <;>
    rw [hdet] at hp
  · simp at hp
  · simp only [Option.some.injEq] at hp
    exact ⟨i, d, ph, pl, hi, hdet, hp.symm⟩

theorem detect_direction (df : List Bar) (lookback : ℕ) (hover_range : ℚ)
    (i : ℕ) (d ph pl : ℚ)
    (h : detect df lookback hover_range i = some (d, ph, pl)) :
    d = 1 ∨ d = -1 := by
  unfold detect at h
  rcases hM : listMax ((priorWindow df lookback i).map Bar.High) with _ | ph0 <;>
    rw [hM] at h
  · simp at h
  · rcases hm : listMin ((priorWindow df lookback i).map Bar.Low) with _ | pl0 <;>
      rw [hm] at h
    · simp at h
    · dsimp only at h
      split_ifs at h <;> simp_all

theorem c6_exit_bounds_aux (df : List Bar) (tp sl : ℚ) (max_hold : ℕ)
    (spread : ℚ) (i : ℕ) (d : ℚ) (hmh : 1 ≤ max_hold) :
    i < (mkTradeAt df tp sl max_hold spread i d).exit_bar ∧
    (mkTradeAt df tp sl max_hold spread i d).exit_bar - i ≤ max_hold := by
  rcases hfe : findExit df d ((barAt df i).Open + spread / 2 * d + tp * d)
      ((barAt df i).Open + spread / 2 * d - sl * d) (spread / 2)
      (List.range' (i + 1) max_hold) with _ | ⟨p, j, o⟩
  · simp only [mkTradeAt, hfe]
    omega
  · have hj := findExit_mem df d _ _ _ _ _ _ _ hfe
    rw [List.mem_range'_1] at hj
    simp only [mkTradeAt, hfe]
    omega

/-- Claim C6: every trade produced by the backtest satisfies
`exit_bar > entry_bar` and `exit_bar - entry_bar ≤ max_hold`.  The hypothesis
`1 ≤ max_hold` is the StrategyParams domain (`maxHold` is a positive
integer). -/
theorem c6_exit_bounds (df : List Bar) (lookback : ℕ) (hover_range tp sl : ℚ)
    (max_hold : ℕ) (spread : ℚ) (t : Trade) (hmh : 1 ≤ max_hold)
    (ht : t ∈ backtest df lookback hover_range tp sl max_hold spread) :
    t.entry_bar < t.exit_bar ∧ t.exit_bar - t.entry_bar ≤ max_hold := by
  obtain ⟨i, d, ph, pl, hi, hdet, hteq⟩ :=
    mem_backtest df lookback hover_range tp sl max_hold spread t ht
  have hentry : t.entry_bar = i := by
    rw [hteq]
    rcases hfe : findExit df d ((barAt df i).Open + spread / 2 * d + tp * d)
        ((barAt df i).Open + spread / 2 * d - sl * d) (spread / 2)
        (List.range' (i + 1) max_hold) with _ | ⟨p, j, o⟩ <;>
      simp only [mkTradeAt, hfe]
  have hb := c6_exit_bounds_aux df tp sl max_hold spread i d hmh
  rw [← hteq] at hb
  rw [hentry]
  exact hb

/-- Witness for C6 at a concrete series and parameter set. -/
theorem c6_exit_bounds_witness :
    tEx.entry_bar < tEx.exit_bar ∧ tEx.exit_bar - tEx.entry_bar ≤ 1 :=
  c6_exit_bounds dfEx 1 0 1 (1 / 2) 1 0 tEx (by norm_num)
    (by rw [backtest_dfEx_eval]; exact List.mem_singleton.mpr rfl)

/-- Claim C10: a trade that exits on take-profit has
`pnl = tp - spread / 2`, and a trade that exits on stop-loss has
`pnl = -(sl + spread / 2)`, for both directions. -/
theorem c10_pnl_const (df : List Bar) (lookback : ℕ) (hover_range tp sl : ℚ)
    (max_hold : ℕ) (spread : ℚ) (t : Trade)
    (ht : t ∈ backtest df lookback hover_range tp sl max_hold spread) :
    (t.outcome = Outcome.tp → t.pnl = tp - spread / 2) ∧
    (t.outcome = Outcome.sl → t.pnl = -(sl + spread / 2)) := by
  obtain ⟨i, d, ph, pl, hi, hdet, hteq⟩ :=
    mem_backtest df lookback hover_range tp sl max_hold spread t ht
  have hd := detect_direction df lookback hover_range i d ph pl hdet
  subst hteq
  rcases hfe : findExit df d ((barAt df i).Open + spread / 2 * d + tp * d)
      ((barAt df i).Open + spread / 2 * d - sl * d) (spread / 2)
      (List.range' (i + 1) max_hold) with _ | ⟨p, j, o⟩
  · simp only [mkTradeAt, hfe]
    constructor <;> intro hoc <;> exact Outcome.noConfusion hoc
  · have hcases := findExit_price df d _ _ _ hd _ _ _ _ hfe
    simp only [mkTradeAt, hfe]
    rcases hcases with ⟨ho, hp⟩ | ⟨ho, hp⟩ <;> subst ho <;> subst hp
    · refine ⟨fun _ => ?_, fun hoc => Outcome.noConfusion hoc⟩
      rcases hd with hd | hd <;> subst hd <;> ring
    · refine ⟨fun hoc => Outcome.noConfusion hoc, fun _ => ?_⟩
      rcases hd with hd | hd <;> subst hd <;> ring

/-- Witness for C10 at a concrete series and parameter set. -/
theorem c10_pnl_const_witness :
    (tEx.outcome = Outcome.tp → tEx.pnl = 1 - 0 / 2) ∧
    (tEx.outcome = Outcome.sl → tEx.pnl = -(1 / 2 + 0 / 2)) :=
  c10_pnl_const dfEx 1 0 1 (1 / 2) 1 0 tEx
    (by rw [backtest_dfEx_eval]; exact List.mem_singleton.mpr rfl)

theorem mkTradeAt_entry_fields (df : List Bar) (tp sl : ℚ) (max_hold : ℕ)
    (spread : ℚ) (i : ℕ) (d : ℚ) :
    (mkTradeAt df tp sl max_hold spread i d).entry_bar = i ∧
    (mkTradeAt df tp sl max_hold spread i d).direction = d ∧
    (mkTradeAt df tp sl max_hold spread i d).entry_price =
      (barAt df i).Open + spread / 2 * d := by
  rcases hfe : findExit df d ((barAt df i).Open + spread / 2 * d + tp * d)
      ((barAt df i).Open + spread / 2 * d - sl * d) (spread / 2)
      (List.range' (i + 1) max_hold) with _ | ⟨p, j, o⟩ <;>
    simp [mkTradeAt, hfe]

theorem hb_trade_fields (df : List Bar) (back_candles : ℕ)
    (range_pips tp_pips sl_pips : ℚ) (future_candles : ℕ) (spread : ℚ)
    (idx : ℕ) (t : HBTrade)
    (hp : hb_process_bar df back_candles range_pips tp_pips sl_pips
      future_candles spread idx = some t) :
    ∃ (d ph pl : ℚ),
      hb_detect df back_candles range_pips idx = some (d, ph, pl) ∧
      t.time_open = idx ∧ t.direction = d ∧
      t.open_price = (barAt df idx).Close + d * (spread / 2) := by
  unfold hb_process_bar at hp
  rcases hdet : hb_detect df back_candles range_pips idx with _ | ⟨d, ph, pl⟩ <;>
    rw [hdet] at hp
  · simp at hp
  · dsimp only at hp
    rcases hfe : hb_find_exit df d
        ((barAt df idx).Close + d * (spread / 2) + d * tp_pips * pip)
        ((barAt df idx).Close + d * (spread / 2) - d * sl_pips * pip)
        (List.range' (idx + 1) future_candles) with _ | ⟨p, j, o⟩ <;>
      rw [hfe] at hp <;> dsimp only at hp <;>
      simp only [Option.some.injEq] at hp <;>
      exact ⟨d, ph, pl, rfl, by rw [← hp], by rw [← hp], by rw [← hp]⟩

/-- Claim C3 (amended): in the `backtest` of `hover_strategy_test.py` every
trade enters at `Open[entry_bar] + (spread / 2) * direction`; in
`hover_breakout_strategy` the entry basis is the Close of the signal bar, not
its Open: every trade enters at `Close[time_open] + direction * (spread / 2)`. -/
theorem c3_entry_price :
    (∀ (df : List Bar) (lookback : ℕ) (hover_range tp sl : ℚ)
        (max_hold : ℕ) (spread : ℚ) (t : Trade),
        t ∈ backtest df lookback hover_range tp sl max_hold spread →
        t.entry_price = (barAt df t.entry_bar).Open + spread / 2 * t.direction)
    ∧ (∀ (df : List Bar) (back_candles : ℕ) (range_pips tp_pips sl_pips : ℚ)
        (future_candles : ℕ) (spread : ℚ) (t : HBTrade),
        t ∈ hover_breakout_strategy df back_candles range_pips tp_pips sl_pips
          future_candles spread →
        t.open_price = (barAt df t.time_open).Close + t.direction * (spread / 2)) := by
  constructor
  · intro df lookback hover_range tp sl max_hold spread t ht
    obtain ⟨i, d, ph, pl, hi, hdet, hteq⟩ :=
      mem_backtest df lookback hover_range tp sl max_hold spread t ht
    obtain ⟨he1, he2, he3⟩ := mkTradeAt_entry_fields df tp sl max_hold spread i d
    rw [hteq, he1, he2, he3]
  · intro df back_candles range_pips tp_pips sl_pips future_candles spread t ht
    rw [hover_breakout_strategy, List.mem_filterMap] at ht
    obtain ⟨idx, hidx, hp⟩ := ht
    obtain ⟨d, ph, pl, hdet, h1, h2, h3⟩ := hb_trade_fields df back_candles
      range_pips tp_pips sl_pips future_candles spread idx t hp
    rw [h1, h2, h3]

/-- Counterexample for C3 as stated: `hover_breakout_strategy` opens its trade
at price `2` (the breakout Close plus half the spread), while the Open of the
entry bar is `1`, so the entry is not `Open + (spread / 2) * sign`. -/
theorem c3_entry_price_cex :
    (hover_breakout_strategy dfEx 1 0 1 1 1 0).map HBTrade.open_price = [2] ∧
    (barAt dfEx 1).Open = 1 ∧
    (2 : ℚ) ≠ (barAt dfEx 1).Open + 0 / 2 * 1 := by
  refine ⟨?_, ?_, ?_⟩
  · rw [hb_strategy_dfEx_eval]; norm_num [tHB]
  · norm_num [barAt, dfEx]
  · norm_num [barAt, dfEx]

/-- Witness for C3 at concrete inputs for both conjuncts. -/
theorem c3_entry_price_witness :
    tEx.entry_price = (barAt dfEx tEx.entry_bar).Open + 0 / 2 * tEx.direction ∧
    tHB.open_price = (barAt dfEx tHB.time_open).Close + tHB.direction * (0 / 2) := by
  constructor
  · exact c3_entry_price.1 dfEx 1 0 1 (1 / 2) 1 0 tEx
      (by rw [backtest_dfEx_eval]; exact List.mem_singleton.mpr rfl)
  · exact c3_entry_price.2 dfEx 1 0 1 1 1 0 tHB
      (by rw [hb_strategy_dfEx_eval]; exact List.mem_singleton.mpr rfl)

/-- Claim C1 (amended): when both exit levels are breached within the bar the
scan exits on, the scan of `grouped_volatility_backtest.py` exits at the stop
price with outcome stop-loss; the scans of `hover_strategy_test.py` and
`hover_breakout_backtester.py` test the take-profit first, so there the trade
exits at the target, not at the stop (shown for the Long direction, the one
the claim spells out). -/
theorem c1_same_bar_tie_break :
    (∀ (df : List Bar) (tp_price sl_price : ℚ) (js : List ℕ) (p : ℚ) (j : ℕ)
        (o : Outcome),
        gv_find_exit df 1 tp_price sl_price js = some (p, j, o) →
        (barAt df j).High ≥ tp_price → (barAt df j).Low ≤ sl_price →
        p = sl_price ∧ o = Outcome.sl)
    ∧ (∀ (df : List Bar) (target stop half : ℚ) (js : List ℕ) (p : ℚ) (j : ℕ)
        (o : Outcome),
        findExit df 1 target stop half js = some (p, j, o) →
        (barAt df j).High ≥ target → (barAt df j).Low ≤ stop →
        p = target - half ∧ o = Outcome.tp)
    ∧ (∀ (df : List Bar) (tp_price sl_price : ℚ) (js : List ℕ) (p : ℚ) (j : ℕ)
        (o : Outcome),
        hb_find_exit df 1 tp_price sl_price js = some (p, j, o) →
        (barAt df j).High ≥ tp_price → (barAt df j).Low ≤ sl_price →
        p = tp_price ∧ o = Outcome.tp) :=
  ⟨fun df a b js p j o => gv_find_exit_both df a b js p j o,
   fun df a b c js p j o => findExit_both df a b c js p j o,
   fun df a b js p j o => hb_find_exit_both df a b js p j o⟩

/-- Witness for C1 at concrete one-bar scans breaching both levels. -/
theorem c1_same_bar_tie_break_witness :
    ((1 / 2 : ℚ) = 1 / 2 ∧ Outcome.sl = Outcome.sl)
    ∧ ((2 : ℚ) = 2 - 0 ∧ Outcome.tp = Outcome.tp)
    ∧ ((2 : ℚ) = 2 ∧ Outcome.tp = Outcome.tp) := by
  refine ⟨c1_same_bar_tie_break.1 dfGv 2 (1 / 2) [0] (1 / 2) 0 Outcome.sl
      ?_ ?_ ?_,
    c1_same_bar_tie_break.2.1 dfEx 2 (1 / 2) 0 [2] 2 2 Outcome.tp ?_ ?_ ?_,
    c1_same_bar_tie_break.2.2 dfEx 2 (1 / 2) [2] 2 2 Outcome.tp ?_ ?_ ?_⟩ <;>
    norm_num [gv_find_exit, findExit, hb_find_exit, barAt, dfGv, dfEx]

/-- Counterexample for C1 as stated: on `dfEx` the hover backtest's only trade
has its exit bar breach both the target (`1 + 1`) and the stop (`1 - 1 / 2`),
yet it exits at the target price `2` with outcome take-profit, not at the stop
price `1 - 1 / 2 - 0 / 2` with outcome stop-loss. -/
theorem c1_same_bar_tie_break_cex :
    backtest dfEx 1 0 1 (1 / 2) 1 0 = [tEx]
    ∧ (barAt dfEx 2).High ≥ 1 + 1
    ∧ (barAt dfEx 2).Low ≤ 1 - 1 / 2
    ∧ tEx.outcome = Outcome.tp
    ∧ tEx.exit_price = 1 + 1 - 0 / 2
    ∧ tEx.outcome ≠ Outcome.sl
    ∧ tEx.exit_price ≠ 1 - 1 / 2 - 0 / 2 := by
  refine ⟨backtest_dfEx_eval, ?_, ?_, ?_, ?_, ?_, ?_⟩ <;>
    first
      | exact fun hc => Outcome.noConfusion hc
      | norm_num [barAt, dfEx, tEx]

theorem foldl_max_mem (xs : List ℚ) :
    ∀ x : ℚ, xs.foldl max x ∈ x :: xs := by
  induction xs with
  | nil => intro x; simp
  | cons y ys ih =>
    intro x
    rw [List.foldl_cons]
    rcases List.mem_cons.mp (ih (max x y)) with h1 | h1
    · rcases max_choice x y with hc | hc
      · rw [h1, hc]; exact List.mem_cons_self _ _
      · rw [h1, hc]; exact List.mem_cons_of_mem _ (List.mem_cons_self _ _)
    · exact List.mem_cons_of_mem _ (List.mem_cons_of_mem _ h1)

theorem le_foldl_max (xs : List ℚ) :
    ∀ x a : ℚ, a ∈ x :: xs → a ≤ xs.foldl max x := by
  induction xs with
  | nil =>
    intro x a ha
    rw [List.mem_singleton] at ha
    subst ha
    exact le_refl a
  | cons y ys ih =>
    intro x a ha
    rw [List.foldl_cons]
    have hhead : max x y ≤ ys.foldl max (max x y) :=
      ih (max x y) (max x y) (List.mem_cons_self _ _)
    rcases List.mem_cons.mp ha with h1 | h1
    · subst h1
      exact le_trans (le_max_left a y) hhead
    · rcases List.mem_cons.mp h1 with h2 | h2
      · subst h2
        exact le_trans (le_max_right x a) hhead
      · exact ih (max x y) a (List.mem_cons_of_mem _ h2)

theorem foldl_min_mem (xs : List ℚ) :
    ∀ x : ℚ, xs.foldl min x ∈ x :: xs := by
  induction xs with
  | nil => intro x; simp
  | cons y ys ih =>
    intro x
    rw [List.foldl_cons]
    rcases List.mem_cons.mp (ih (min x y)) with h1 | h1
    · rcases min_choice x y with hc | hc
      · rw [h1, hc]; exact List.mem_cons_self _ _
      · rw [h1, hc]; exact List.mem_cons_of_mem _ (List.mem_cons_self _ _)
    · exact List.mem_cons_of_mem _ (List.mem_cons_of_mem _ h1)

theorem foldl_min_le (xs : List ℚ) :
    ∀ x a : ℚ, a ∈ x :: xs → xs.foldl min x ≤ a := by
  induction xs with
  | nil =>
    intro x a ha
    rw [List.mem_singleton] at ha
    subst ha
    exact le_refl a
  | cons y ys ih =>
    intro x a ha
    rw [List.foldl_cons]
    have hhead : ys.foldl min (min x y) ≤ min x y :=
      ih (min x y) (min x y) (List.mem_cons_self _ _)
    rcases List.mem_cons.mp ha with h1 | h1
    · subst h1
      exact le_trans hhead (min_le_left a y)
    · rcases List.mem_cons.mp h1 with h2 | h2
      · subst h2
        exact le_trans hhead (min_le_right x a)
      · exact ih (min x y) a (List.mem_cons_of_mem _ h2)

theorem listMax_mem (l : List ℚ) (m : ℚ) (h : listMax l = some m) : m ∈ l := by
  cases l with
  | nil => simp [listMax] at h
  | cons x xs =>
    rw [listMax, Option.some.injEq] at h
    exact h ▸ foldl_max_mem xs x

theorem le_listMax (l : List ℚ) (m : ℚ) (h : listMax l = some m) :
    ∀ a ∈ l, a ≤ m := by
  cases l with
  | nil => simp [listMax] at h
  | cons x xs =>
    rw [listMax, Option.some.injEq] at h
    intro a ha
    exact h ▸ le_foldl_max xs x a ha

theorem listMin_mem (l : List ℚ) (m : ℚ) (h : listMin l = some m) : m ∈ l := by
  cases l with
  | nil => simp [listMin] at h
  | cons x xs =>
    rw [listMin, Option.some.injEq] at h
    exact h ▸ foldl_min_mem xs x

theorem listMin_le (l : List ℚ) (m : ℚ) (h : listMin l = some m) :
    ∀ a ∈ l, m ≤ a := by
  cases l with
  | nil => simp [listMin] at h
  | cons x xs =>
    rw [listMin, Option.some.injEq] at h
    intro a ha
    exact h ▸ foldl_min_le xs x a ha

theorem prior_low_le_high (df : List Bar) (lookback i : ℕ) (ph pl : ℚ)
    (hwf : ∀ b ∈ df, b.Low ≤ b.High)
    (hM : listMax ((priorWindow df lookback i).map Bar.High) = some ph)
    (hm : listMin ((priorWindow df lookback i).map Bar.Low) = some pl) :
    pl ≤ ph := by
  obtain ⟨b, hb, hbh⟩ := List.mem_map.mp (listMax_mem _ _ hM)
  have h1 : pl ≤ b.Low :=
    listMin_le _ _ hm b.Low (List.mem_map_of_mem Bar.Low hb)
  have h2 : b.Low ≤ b.High :=
    hwf b (List.mem_of_mem_drop (List.mem_of_mem_take hb))
  linarith [hbh ▸ le_trans h1 h2]

theorem processBar_isSome (df : List Bar) (lookback : ℕ)
    (hover_range tp sl : ℚ) (max_hold : ℕ) (spread : ℚ) (i : ℕ) :
    (processBar df lookback hover_range tp sl max_hold spread i).isSome =
      (detect df lookback hover_range i).isSome := by
  unfold processBar
  rcases hdet : detect df lookback hover_range i with _ | ⟨d, ph, pl⟩ <;>
    simp [hdet]

/-- Claim C7: the detector signals only when the window range is within the
threshold (inclusively), the direction is Long exactly when the Close exceeds
the window high and Short exactly when it undercuts the window low, a Close
exactly at either boundary yields no signal, and the scan opens a trade at a
bar exactly when the detector signals there. -/
theorem c7_detector (df : List Bar) (lookback : ℕ) (hover_range : ℚ) (i : ℕ)
    (tp sl : ℚ) (max_hold : ℕ) (spread : ℚ) (ph pl : ℚ)
    (hwf : ∀ b ∈ df, b.Low ≤ b.High)
    (hM : listMax ((priorWindow df lookback i).map Bar.High) = some ph)
    (hm : listMin ((priorWindow df lookback i).map Bar.Low) = some pl) :
    ((detect df lookback hover_range i).isSome → ph - pl ≤ hover_range)
    ∧ (detect df lookback hover_range i = some (1, ph, pl) ↔
        ph - pl ≤ hover_range ∧ ph < (barAt df i).Close)
    ∧ (detect df lookback hover_range i = some (-1, ph, pl) ↔
        ph - pl ≤ hover_range ∧ (barAt df i).Close < pl)
    ∧ (((barAt df i).Close = ph ∨ (barAt df i).Close = pl) →
        detect df lookback hover_range i = none)
    ∧ ((processBar df lookback hover_range tp sl max_hold spread i).isSome =
        (detect df lookback hover_range i).isSome) := by
  have hplh : pl ≤ ph := prior_low_le_high df lookback i ph pl hwf hM hm
  have hdeq : detect df lookback hover_range i =
      (if ph - pl > hover_range then none
       else if (barAt df i).Close > ph then some (1, ph, pl)
       else if (barAt df i).Close < pl then some (-1, ph, pl)
       else none) := by
    unfold detect
    rw [hM, hm]
  refine ⟨?_, ?_, ?_, ?_,
    processBar_isSome df lookback hover_range tp sl max_hold spread i⟩
  · intro hs
    rw [hdeq] at hs
    by_cases hr : ph - pl > hover_range
    · rw [if_pos hr] at hs
      simp at hs
    · exact not_lt.mp hr
  · rw [hdeq]
    by_cases hr : ph - pl > hover_range
    · rw [if_pos hr]
      constructor
      · intro hc; simp at hc
      · intro hc; exact absurd hc.1 (not_le.mpr hr)
    · rw [if_neg hr]
      by_cases hcg : (barAt df i).Close > ph
      · rw [if_pos hcg]
        exact ⟨fun _ => ⟨not_lt.mp hr, hcg⟩, fun _ => rfl⟩
      · rw [if_neg hcg]
        by_cases hcl : (barAt df i).Close < pl
        · rw [if_pos hcl]
          constructor
          · intro hc
            simp only [Option.some.injEq, Prod.mk.injEq] at hc
            norm_num at hc
          · intro hc; exact absurd hc.2 hcg
        · rw [if_neg hcl]
          constructor
          · intro hc; simp at hc
          · intro hc; exact absurd hc.2 hcg
  · rw [hdeq]
    by_cases hr : ph - pl > hover_range
    · rw [if_pos hr]
      constructor
      · intro hc; simp at hc
      · intro hc; exact absurd hc.1 (not_le.mpr hr)
    · rw [if_neg hr]
      by_cases hcg : (barAt df i).Close > ph
      · rw [if_pos hcg]
        constructor
        · intro hc
          simp only [Option.some.injEq, Prod.mk.injEq] at hc
          norm_num at hc
        · intro hc
          linarith [hc.2]
      · rw [if_neg hcg]
        by_cases hcl : (barAt df i).Close < pl
        · rw [if_pos hcl]
          exact ⟨fun _ => ⟨not_lt.mp hr, hcl⟩, fun _ => rfl⟩
        · rw [if_neg hcl]
          constructor
          · intro hc; simp at hc
          · intro hc; exact absurd hc.2 hcl
  · intro hcase
    rw [hdeq]
    by_cases hr : ph - pl > hover_range
    · rw [if_pos hr]
    · rw [if_neg hr]
      rcases hcase with hc | hc
      · rw [if_neg (by rw [hc]; exact lt_irrefl ph)]
        rw [if_neg (by rw [hc]; exact not_lt.mpr hplh)]
      · rw [if_neg (by rw [hc]; exact not_lt.mpr hplh)]
        rw [if_neg (by rw [hc]; exact lt_irrefl pl)]

/-- Witness for C7 at the concrete series `dfEx`, bar 1. -/
theorem c7_detector_witness :
    ((detect dfEx 1 0 1).isSome → (1 : ℚ) - 1 ≤ 0)
    ∧ (detect dfEx 1 0 1 = some (1, 1, 1) ↔
        (1 : ℚ) - 1 ≤ 0 ∧ (1 : ℚ) < (barAt dfEx 1).Close)
    ∧ (detect dfEx 1 0 1 = some (-1, 1, 1) ↔
        (1 : ℚ) - 1 ≤ 0 ∧ (barAt dfEx 1).Close < 1)
    ∧ (((barAt dfEx 1).Close = 1 ∨ (barAt dfEx 1).Close = 1) →
        detect dfEx 1 0 1 = none)
    ∧ ((processBar dfEx 1 0 1 (1 / 2) 1 0 1).isSome =
        (detect dfEx 1 0 1).isSome) := by
  refine c7_detector dfEx 1 0 1 1 (1 / 2) 1 0 1 1 ?_ ?_ ?_
  · intro b hb
    simp only [dfEx, List.mem_cons, List.not_mem_nil, or_false] at hb
    rcases hb with h | h | h <;> subst h <;> norm_num
  · norm_num [priorWindow, listMax, dfEx]
  · norm_num [priorWindow, listMin, dfEx]

theorem length_filter_nonpos (l : List ℚ) :
    (l.filter (fun p => p ≤ 0)).length =
      l.length - (l.filter (fun p => 0 < p)).length := by
  induction l with
  | nil => simp
  | cons x l ih =>
    have hle := List.length_filter_le (fun p => decide (0 < p)) l
    by_cases hx : 0 < x
    · simp only [List.filter_cons, hx, not_le.mpr hx, decide_True, decide_False,
        Bool.false_eq_true, if_true, if_false, List.length_cons]
      omega
    · simp only [List.filter_cons, hx, not_lt.mp hx, decide_True, decide_False,
        Bool.false_eq_true, if_true, if_false, List.length_cons]
      omega

theorem sum_filter_nonpos_le (l : List ℚ) :
    (l.filter (fun p => p ≤ 0)).sum ≤ 0 := by
  induction l with
  | nil => simp
  | cons x l ih =>
    by_cases hx : x ≤ 0
    · simp only [List.filter_cons, hx, decide_True, if_true, List.sum_cons]
      linarith
    · simp only [List.filter_cons, hx, decide_False, Bool.false_eq_true, if_false]
      exact ih

theorem sum_filter_pos_nonneg (l : List ℚ) :
    0 ≤ (l.filter (fun p => 0 < p)).sum :=
  List.sum_nonneg fun x hx =>
    le_of_lt (of_decide_eq_true (List.mem_filter.mp hx).2)

theorem avg_win_nonneg (l : List ℚ) : 0 ≤ avg_win l := by
  unfold avg_win
  split_ifs with h
  · exact le_refl 0
  · exact div_nonneg (sum_filter_pos_nonneg l) (Nat.cast_nonneg _)

theorem avg_loss_nonneg (l : List ℚ) : 0 ≤ avg_loss l := by
  unfold avg_loss
  split_ifs with h
  · exact le_refl 0
  · exact div_nonneg (neg_nonneg.mpr (sum_filter_nonpos_le l)) (Nat.cast_nonneg _)

theorem rr_nonneg (l : List ℚ) : 0 ≤ rr l := by
  unfold rr
  split_ifs with h
  · exact le_refl 0
  · exact div_nonneg (avg_win_nonneg l) (avg_loss_nonneg l)

/-- Claim C4: the engine's risk-reward and Kelly fraction agree with the
spec-side formulas `riskReward = avgWin / avgLoss` when `avgLoss > 0` else
`0`, and `kellyFraction = winRate - (1 - winRate) / riskReward` when
`riskReward > 0` else `0`, with `avgWin` the mean of the positive pnls and
`avgLoss` the positive magnitude of the mean of the pnls `≤ 0`. -/
theorem c4_risk_reward_kelly :
    ∀ (l : List ℚ) (trades : List Trade) (b : ℚ),
      avg_win l = spec_avg_win l
      ∧ avg_loss l = spec_avg_loss l
      ∧ rr l = spec_risk_reward l
      ∧ kelly l = spec_kelly l
      ∧ (compute_metrics trades b).kelly = kelly (pnls trades) := by
  intro l trades b
  have hw : avg_win l = spec_avg_win l := rfl
  have hl : avg_loss l = spec_avg_loss l := by
    unfold avg_loss spec_avg_loss losses_of wins_of
    dsimp only
    rw [← length_filter_nonpos l]
    split_ifs with h
    · rfl
    · exact neg_div _ _
  have hr : rr l = spec_risk_reward l := by
    unfold rr spec_risk_reward
    rw [← hl, ← hw]
    by_cases h : avg_loss l = 0
    · rw [if_pos h, h, if_neg (lt_irrefl 0)]
    · rw [if_neg h, if_pos (lt_of_le_of_ne (avg_loss_nonneg l) (Ne.symm h))]
  have hk : kelly l = spec_kelly l := by
    unfold kelly spec_kelly
    rw [← hr]
    by_cases h : rr l = 0
    · rw [if_pos h, h, if_neg (lt_irrefl 0)]
    · rw [if_neg h, if_pos (lt_of_le_of_ne (rr_nonneg l) (Ne.symm h))]
  exact ⟨hw, hl, hr, hk, rfl⟩

/-- Claim C5: `compute_metrics` on the empty trade list returns the all-zero
metrics record (the guarded divisions all take their `0` branch; nothing is
raised and no NaN or Inf can arise over `ℚ`). -/
theorem c5_empty_metrics :
    ∀ b : ℚ, compute_metrics [] b = ⟨0, 0, 0, 0, 0, 0, 0, 0⟩ := by
  intro b
  norm_num [compute_metrics, pnls, wins_of, losses_of, win_rate, max_drawdown,
    dd_step, expectancy, kelly, rr, avg_win, avg_loss, Metrics.mk.injEq]

theorem simulate_equity_from_length (kf : ℚ) :
    ∀ (ts : List Trade) (e : ℚ), (simulate_equity_from kf e ts).length = ts.length := by
  intro ts
  induction ts with
  | nil => intro e; rfl
  | cons t ts ih =>
    intro e
    simp only [simulate_equity_from, List.length_cons, ih]

theorem simulate_account_from_length (kf : ℚ) :
    ∀ (ts : List Trade) (e : ℚ), (simulate_account_from kf e ts).length = ts.length := by
  intro ts
  induction ts with
  | nil => intro e; rfl
  | cons t ts ih =>
    intro e
    simp only [simulate_account_from, List.length_cons, ih]

/-- Claim C8: both equity simulators return a curve of length
`len(trades) + 1` whose first element is the starting balance. -/
theorem c8_curve_length :
    ∀ (trades : List Trade) (kf start : ℚ),
      (simulate_equity trades kf start).length = trades.length + 1
      ∧ (simulate_equity trades kf start).head? = some start
      ∧ (simulate_account trades kf start).length = trades.length + 1
      ∧ (simulate_account trades kf start).head? = some start := by
  intro trades kf start
  refine ⟨?_, rfl, ?_, rfl⟩
  · simp [simulate_equity, simulate_equity_from_length]
  · simp [simulate_account, simulate_account_from_length]

theorem simulate_equity_from_const (kf : ℚ) (hkf : kf ≤ 0) :
    ∀ (ts : List Trade) (e x : ℚ), x ∈ simulate_equity_from kf e ts → x = e := by
  intro ts
  induction ts with
  | nil => intro e x hx; simp [simulate_equity_from] at hx
  | cons t ts ih =>
    intro e x hx
    have hmax : max 0 kf = 0 := max_eq_left hkf
    simp only [simulate_equity_from, hmax, mul_zero, add_zero] at hx
    rcases List.mem_cons.mp hx with h | h
    · exact h
    · exact ih e x h

/-- Claim C9 (amended): `simulate_equity` of `hover_strategy_test.py` clamps
the stake with `max(0, kelly_fraction)`, so a negative stake fraction leaves
every curve element at the starting balance; `simulate_account` of
`strategy_tester.py` applies the fraction unclamped (its caller passes
`max(0, kelly)` instead, line 95). -/
theorem c9_negative_stake :
    ∀ (trades : List Trade) (kf start x : ℚ),
      kf < 0 → x ∈ simulate_equity trades kf start → x = start := by
  intro trades kf start x hkf hx
  rw [simulate_equity] at hx
  rcases List.mem_cons.mp hx with h | h
  · exact h
  · exact simulate_equity_from_const kf (le_of_lt hkf) trades start x h

/-- Witness for C9 at a concrete trade list and negative fraction. -/
theorem c9_negative_stake_witness :
    (simulate_equity [tEx] (-1) 10000).getD 1 0 = 10000 := by
  have h : simulate_equity [tEx] (-1) 10000 = [10000, 10000] := by
    norm_num [simulate_equity, simulate_equity_from, tEx]
  exact c9_negative_stake [tEx] (-1) 10000 _ (by norm_num) (by rw [h]; simp)

/-- Counterexample for C9 as stated: `simulate_account` with the negative
stake fraction `-1` produces the curve `[10000, 0]`, whose second element is
not the starting balance — the equity simulator of `strategy_tester.py` does
not clamp. -/
theorem c9_negative_stake_cex :
    simulate_account [tEx] (-1) 10000 = [10000, 0]
    ∧ (0 : ℚ) ∈ simulate_account [tEx] (-1) 10000
    ∧ (0 : ℚ) ≠ 10000
    ∧ (-1 : ℚ) < 0 := by
  have h : simulate_account [tEx] (-1) 10000 = [10000, 0] := by
    norm_num [simulate_account, simulate_account_from, tEx]
  refine ⟨h, ?_, by norm_num, by norm_num⟩
  rw [h]
  simp

/-- Claim C2: on a zero-trade grid combination `run_test` does not return an
all-zero metrics record — `calculate_stats` raises `KeyError` selecting the
`Time Close` column of the empty trade DataFrame, so the combination never
reaches the ranking.  The source guards every other empty-input case
(`if total_trades else 0` and friends), so the spec's stated policy is the
evident intent and the unguarded column access a slip. -/
theorem c2_zero_trades_keyerror :
    hover_breakout_strategy dfNoTrade 1 4 12 20 1 (2 / 10000) = []
    ∧ run_test dfNoTrade 1 4 12 20 1 = Except.error "KeyError: Time Close" := by
  constructor
  · norm_num [hover_breakout_strategy, hb_process_bar, hb_detect, listMax,
      listMin, barAt, pip, List.range', dfNoTrade]
  · norm_num [run_test, hover_breakout_strategy, hb_process_bar, hb_detect,
      listMax, listMin, barAt, pip, List.range', dfNoTrade, calculate_stats,
      time_close_column]

end Trading
